import Mathlib

/-!
Shallow embedding of the ingestion and aggregation core of the
health-service repository, together with proofs settling the frozen
claims about its specification.

Sources embedded:
- src/health-database.js : the health_metrics schema (CREATE TABLE, no
  UNIQUE constraint), saveHealthMetric, saveAutoExportData, logSync.
- src/health-api.js : getAppleHealthMetrics (metric-name map, cumulative
  kinds, date-range computation, device filter, the SQL branches for the
  none/daily/weekly/monthly/yearly/total aggregation levels, the result
  transforms and the summary block).

Modelling conventions:
- JS numbers are modelled as rationals; SQL NULL and JS
  undefined/null as Option.
- SQL TEXT comparison (BINARY collation) is byte-wise; all stored dates
  are ASCII, so it is modelled as lexicographic order on the char list.
- The wall clock (new Date()) is an ambient input: queries take a
  QueryEnv holding the date-only string for today and for the cutoff.
- sqlite runQuery failures (StoreUnavailable) are an environmental input:
  the fallible writer is parameterised by an oracle telling which
  runQuery invocation (counted in call order) fails.
- JSON metadata blobs are abstracted to a plain string holding the
  source tag; no claim reads a metadata field written by this ingestion
  path, and the query-side LIKE filter is modelled as substring search
  over whatever string is stored.
-/

/- The core rational operations carry a reducibility marker that blocks
term-level evaluation; restoring the default transparency lets concrete
runs of the embedded code be settled by the kernel. -/
set_option allowUnsafeReducibility true in
attribute [semireducible] Rat.add Rat.mul Rat.inv Rat.div Rat.sub Rat.neg Rat.normalize Rat.floor Rat.ceil

namespace Health

/-! ## String order and substring search (sqlite BINARY collation, LIKE) -/

/-- Lexicographic strict order on char lists, byte-wise as in the sqlite
BINARY collation for the ASCII strings this service stores. -/
def lexLt : List Char → List Char → Bool
  | [], [] => false
  | [], _ :: _ => true
  | _ :: _, [] => false
  | a :: as, b :: bs => if a < b then true else if b < a then false else lexLt as bs

/-- sqlite string comparison a <= b. -/
def strLeB (a b : String) : Bool := !(lexLt b.data a.data)

/-- Does the second list start with the first one? -/
def matchesAt : List Char → List Char → Bool
  | [], _ => true
  | _ :: _, [] => false
  | a :: as, b :: bs => a = b && matchesAt as bs

/-- Substring search: LIKE with a pattern of the shape percent-text-percent. -/
def containsSeq (pat : List Char) : List Char → Bool
  | [] => matchesAt pat []
  | c :: rest => matchesAt pat (c :: rest) || containsSeq pat rest

/-- SUBSTR(s, 1, n), counted in characters. -/
def substrN (n : Nat) (s : String) : String := String.mk (s.data.take n)

/-! ## JS number helpers -/

/-- JS Math.round: round half toward positive infinity. -/
def jround (x : ℚ) : ℤ := Int.floor (x + 1/2)

/-- Math.round(x * 100) / 100, the 2-decimal rounding used by the API. -/
def round2 (x : ℚ) : ℚ := ((jround (x * 100) : ℤ) : ℚ) / 100

/-- JS truthiness of a number-or-null value: null and 0 are falsy. -/
def truthyQ : Option ℚ → Bool
  | Option.none => false
  | some x => x ≠ 0

/-! ## Data model: the health_metrics row -/

/-- One stored row of the health_metrics table (health-database.js,
CREATE TABLE health_metrics).  The id and created_at columns are
omitted: id is an auto-assigned surrogate and created_at an ambient
receipt time, and no claim reads either. -/
structure Row where
  metric_type : String
  metric_source : String
  metric_date : Option String
  metric_value : Option ℚ
  metric_unit : String
  metric_value_converted : Option ℚ
  additional_data : Option String
deriving DecidableEq

/-- One stored row of the apple_health_auto_export audit table, reduced
to the fields the claims read: status and the payload counts. -/
structure ImportRec where
  status : String
  metrics_count : Nat
  workouts_count : Nat
deriving DecidableEq

/-! ## health-database.js : saveHealthMetric -/

/-- Energy conversion of saveHealthMetric (health-database.js lines
324-332): active_energy and basal_energy_burned in kJ divide by 4.184,
any other unit or kind passes through unchanged. -/
def convQ (type : String) (v : ℚ) (unit : String) : ℚ :=
  if type = "active_energy" || type = "basal_energy_burned" then
    if unit = "kJ" then v / (4184/1000) else v
  else v

/-- The row built by saveHealthMetric.  A missing value stays NULL in
both columns (JS undefined, and undefined/4.184 = NaN, both bind as
sqlite NULL). -/
def metricRowOf (type source : String) (date : Option String) (value : Option ℚ)
    (unit : String) (extra : Option String) : Row :=
  { metric_type := type
    metric_source := source
    metric_date := date
    metric_value := value
    metric_unit := unit
    metric_value_converted := value.map (fun v => convQ type v unit)
    additional_data := extra }

/-- saveHealthMetric runs INSERT OR IGNORE INTO health_metrics.  The
CREATE TABLE for health_metrics (health-database.js lines 96-110)
declares no UNIQUE constraint and no NOT NULL column, and id is
INTEGER PRIMARY KEY AUTOINCREMENT, so no conflict can ever arise and the
insert always appends a row. -/
def saveHealthMetric (st : List Row) (type source : String) (date : Option String)
    (value : Option ℚ) (unit : String) (extra : Option String) : List Row :=
  st ++ [metricRowOf type source date value unit extra]

/-! ## health-database.js : saveAutoExportData, with a failure oracle -/

/-- Database state threaded through an ingest call: the health_metrics
rows, the apple_health_auto_export rows, a count of health_sync_log rows
and a count of runQuery invocations performed so far (used by the
failure oracle). -/
structure DBState where
  metrics : List Row
  imports : List ImportRec
  syncs : Nat
  calls : Nat
deriving DecidableEq

def emptyDB : DBState := { metrics := [], imports := [], syncs := 0, calls := 0 }

def insertMetricOp (r : Row) (s : DBState) : DBState := { s with metrics := s.metrics ++ [r] }

def insertImportOp (rec : ImportRec) (s : DBState) : DBState :=
  { s with imports := s.imports ++ [rec] }

def insertSyncOp (s : DBState) : DBState := { s with syncs := s.syncs + 1 }

/-- One runQuery invocation: the oracle f tells whether this call (by
its index) fails; on success the given table operation is applied. -/
def tryRun (f : Nat → Bool) (s : DBState) (op : DBState → DBState) : DBState × Bool :=
  if f s.calls then ({ s with calls := s.calls + 1 }, false)
  else (op { s with calls := s.calls + 1 }, true)

/-- saveHealthMetric as a database operation; a rejected runQuery is
rethrown to the caller (health-database.js lines 350-357). -/
def saveHealthMetricE (f : Nat → Bool) (s : DBState) (r : Row) : DBState × Bool :=
  tryRun f s (insertMetricOp r)

/-- logSync performs one insert but swallows its own failure
(health-database.js lines 297-319), so it never propagates an error. -/
def logSyncE (f : Nat → Bool) (s : DBState) : DBState :=
  (tryRun f s insertSyncOp).1

/-- One data point of one metric in an Auto Export payload.  Fields the
ingestion reads: date, qty (regular kinds), totalSleep (sleep_analysis),
Avg (heart_rate, modelled as hrAvg), source. -/
structure DataPoint where
  date : Option String
  qty : Option ℚ
  source : Option String
  totalSleep : Option ℚ
  hrAvg : Option ℚ
deriving DecidableEq

structure Metric where
  name : String
  units : String
  data : Option (List DataPoint)
deriving DecidableEq

structure Workout where
  name : String
  start : Option String
  duration : Option ℚ
  wsource : Option String
deriving DecidableEq

structure Payload where
  metrics : Option (List Metric)
  workouts : Option (List Workout)
deriving DecidableEq

/-- dataPoint.source with the JS fallback to the iPhone tag. -/
def metaSource (o : Option String) : String := o.getD "iPhone"

/-- The row built for one data point (saveAutoExportData lines 429-476):
sleep_analysis stores totalSleep-or-0, heart_rate stores Avg-or-0, every
other kind stores qty as is; the source column is always the
health_auto_export tag and the payload source goes into metadata.  The
JSON metadata blob is abstracted to its source tag (see header note). -/
def rowOfPoint (name units : String) (dp : DataPoint) : Row :=
  if name = "sleep_analysis" then
    metricRowOf name "health_auto_export" dp.date (some (dp.totalSleep.getD 0)) units
      (some ("source=" ++ metaSource dp.source))
  else if name = "heart_rate" then
    metricRowOf name "health_auto_export" dp.date (some (dp.hrAvg.getD 0)) units
      (some ("source=" ++ metaSource dp.source))
  else
    metricRowOf name "health_auto_export" dp.date dp.qty units
      (some ("source=" ++ metaSource dp.source))

/-- The row built for one workout (saveAutoExportData lines 485-501). -/
def rowOfWorkout (w : Workout) : Row :=
  metricRowOf ("workout_" ++ w.name) "health_auto_export" w.start
    (some (w.duration.getD 0)) "seconds" (some ("source=" ++ metaSource w.wsource))

/-- The inner data-point loop: each stored point increments the
metricsStored counter; the first failing insert aborts the rest. -/
def processPoints (f : Nat → Bool) (name units : String) :
    List DataPoint → DBState → Nat → DBState × Nat × Bool
  | [], s, n => (s, n, true)
  | dp :: rest, s, n =>
    let p := saveHealthMetricE f s (rowOfPoint name units dp)
    if p.2 then processPoints f name units rest p.1 (n + 1) else (p.1, n, false)

/-- The metrics loop: a metric without a data array is skipped. -/
def processMetrics (f : Nat → Bool) :
    List Metric → DBState → Nat → DBState × Nat × Bool
  | [], s, n => (s, n, true)
  | m :: rest, s, n =>
    match m.data with
    | Option.none => processMetrics f rest s n
    | some dps =>
      let p := processPoints f m.name m.units dps s n
      if p.2.2 then processMetrics f rest p.1 p.2.1 else p

/-- The workouts loop. -/
def processWorkouts (f : Nat → Bool) :
    List Workout → DBState → Nat → DBState × Nat × Bool
  | [], s, n => (s, n, true)
  | w :: rest, s, n =>
    let p := saveHealthMetricE f s (rowOfWorkout w)
    if p.2 then processWorkouts f rest p.1 (n + 1) else (p.1, n, false)

/-- The counts returned by a successful ingest call. -/
structure SaveRes where
  metricsStored : Nat
  workoutsStored : Nat
deriving DecidableEq

/-- The catch block of saveAutoExportData (lines 515-541): insert an
error-status import record (its own failure swallowed), log the sync,
rethrow the error. -/
def errorPath (f : Nat → Bool) (s : DBState) : DBState × Option SaveRes :=
  let p := tryRun f s (insertImportOp { status := "error", metrics_count := 0, workouts_count := 0 })
  (logSyncE f p.1, Option.none)

/-- saveAutoExportData (health-database.js lines 395-542): insert
the import record, loop over metric data points and workouts, log the sync,
return the counts; any failing insert after the first diverts to the
catch block. -/
def saveAutoExportDataE (f : Nat → Bool) (p : Payload) (s0 : DBState) :
    DBState × Option SaveRes :=
  let mc := (p.metrics.getD []).length
  let wc := (p.workouts.getD []).length
  let q := tryRun f s0 (insertImportOp { status := "success", metrics_count := mc, workouts_count := wc })
  if q.2 then
    let pm := processMetrics f (p.metrics.getD []) q.1 0
    if pm.2.2 then
      let pw := processWorkouts f (p.workouts.getD []) pm.1 0
      if pw.2.2 then
        (logSyncE f pw.1, some { metricsStored := pm.2.1, workoutsStored := pw.2.1 })
      else errorPath f pw.1
    else errorPath f pm.1
  else errorPath f q.1

/-- The oracle under which no runQuery fails: the pure semantics of an
ingest call. -/
def noFail : Nat → Bool := fun _ => false

def saveAutoExportData (p : Payload) (s : DBState) : DBState × Option SaveRes :=
  saveAutoExportDataE noFail p s

/-! ## health-api.js : getAppleHealthMetrics -/

/-- The API-name to internal-name map (health-api.js lines 559-570). -/
def metricMap : List (String × String) :=
  [("steps", "step_count"),
   ("heart-rate", "heart_rate"),
   ("active-energy", "active_energy"),
   ("walking-distance", "walking_running_distance"),
   ("body-weight", "weight_body_mass"),
   ("exercise-minutes", "apple_exercise_time"),
   ("flights-climbed", "flights_climbed"),
   ("resting-heart-rate", "resting_heart_rate"),
   ("hrv", "heart_rate_variability_sdnn"),
   ("sleep", "sleep_analysis")]

def lookupMetric (t : String) : Option String :=
  (metricMap.find? (fun p => p.1 == t)).map (fun p => p.2)

/-- Metric kinds aggregated by summation and defaulting to daily
granularity (health-api.js lines 578-585). -/
def cumulativeMetrics : List String :=
  ["step_count", "active_energy", "basal_energy_burned",
   "walking_running_distance", "apple_exercise_time", "flights_climbed"]

def isEnergyKind (t : String) : Bool :=
  t = "active_energy" || t = "basal_energy_burned"

/-- The LIKE percent-Watch-percent test on the metadata column.  SQLite
LIKE is case-insensitive for the ASCII range by default and the repo
sets no PRAGMA or collation that changes it, so both the pattern and
the column are ASCII-case-folded before the substring search
(Char.toLower folds exactly A-Z, matching the LIKE default); a NULL
column never matches. -/
def likeWatch : Option String → Bool
  | Option.none => false
  | some s => containsSeq ("Watch".data.map Char.toLower) (s.data.map Char.toLower)

/-- The step_count device filter (health-api.js lines 605-612): keep a
row when its source is the real-time export tag, or the general export
tag with Watch metadata; other kinds are unfiltered. -/
def deviceFilterPass (t : String) (r : Row) : Bool :=
  if t = "step_count" then
    r.metric_source == "health_auto_export" ||
      (r.metric_source == "health_export_complete" && likeWatch r.additional_data)
  else true

/-- metric_date >= start AND metric_date <= end; a NULL date never
satisfies a sqlite comparison. -/
def inRange (s e : String) (r : Row) : Bool :=
  match r.metric_date with
  | Option.none => false
  | some d => strLeB s d && strLeB d e

/-- The full WHERE clause of every branch of getAppleHealthMetrics. -/
def matchesWhere (t s e : String) (r : Row) : Bool :=
  r.metric_type == t && inRange s e r && deviceFilterPass t r

/-- SQL SUM over a column: NULLs are ignored; the result is NULL only
when no non-NULL value exists. -/
def sqlSum (vals : List (Option ℚ)) : Option ℚ :=
  match vals.reduceOption with
  | [] => Option.none
  | v :: vs => some ((v :: vs).sum)

/-- SQL AVG over a column. -/
def sqlAvg (vals : List (Option ℚ)) : Option ℚ :=
  match vals.reduceOption with
  | [] => Option.none
  | v :: vs => some ((v :: vs).sum / (((v :: vs).length : ℕ) : ℚ))

def sqlMinQ (vals : List (Option ℚ)) : Option ℚ :=
  match vals.reduceOption with
  | [] => Option.none
  | v :: vs => some (vs.foldl min v)

def sqlMaxQ (vals : List (Option ℚ)) : Option ℚ :=
  match vals.reduceOption with
  | [] => Option.none
  | v :: vs => some (vs.foldl max v)

/-- MIN(metric_date) over a group; every grouped row has a non-NULL date
because the WHERE range test already rejected NULL dates. -/
def minDate (rows : List Row) : String :=
  match rows.filterMap Row.metric_date with
  | [] => ""
  | d :: ds => ds.foldl (fun a b => if strLeB b a then b else a) d

def maxDate (rows : List Row) : String :=
  match rows.filterMap Row.metric_date with
  | [] => ""
  | d :: ds => ds.foldl (fun a b => if strLeB a b then b else a) d

/-- The aggregation levels of getAppleHealthMetrics. -/
inductive Agg
  | none | daily | weekly | monthly | yearly | total
deriving DecidableEq

def parseAgg : String → Option Agg
  | "none" => some Agg.none
  | "daily" => some Agg.daily
  | "weekly" => some Agg.weekly
  | "monthly" => some Agg.monthly
  | "yearly" => some Agg.yearly
  | "total" => some Agg.total
  | _ => Option.none

def aggName : Agg → String
  | Agg.none => "none"
  | Agg.daily => "daily"
  | Agg.weekly => "weekly"
  | Agg.monthly => "monthly"
  | Agg.yearly => "yearly"
  | Agg.total => "total"

/-! STRFTIME percent-Y-W-percent-W week keys.  The week number is the C
strftime W field: full weeks since the first Monday of the year, with
the days before it in week 00.  Dates are parsed from the 10-character
date-only string; an unparsable date (STRFTIME NULL) is keyed "". -/

def toDigit (c : Char) : Option Nat :=
  if c.isDigit then some (c.toNat - 48) else Option.none

def parseYMD (s : String) : Option (Int × Nat × Nat) :=
  match s.data with
  | [y1, y2, y3, y4, c1, m1, m2, c2, d1, d2] =>
    if c1 = '-' && c2 = '-' then
      match toDigit y1, toDigit y2, toDigit y3, toDigit y4,
            toDigit m1, toDigit m2, toDigit d1, toDigit d2 with
      | some a, some b, some c, some d, some e, some f, some g, some h =>
        let y : Int := ((a * 1000 + b * 100 + c * 10 + d : Nat) : Int)
        let m := e * 10 + f
        let dd := g * 10 + h
        if 1 ≤ m && m ≤ 12 && 1 ≤ dd && dd ≤ 31 then some (y, m, dd) else Option.none
      | _, _, _, _, _, _, _, _ => Option.none
    else Option.none
  | _ => Option.none

/-- Days since 1970-01-01 of a civil date (standard civil-calendar
arithmetic). -/
def daysFromCivil (y : Int) (m d : Nat) : Int :=
  let y' : Int := if m ≤ 2 then y - 1 else y
  let era : Int := (if 0 ≤ y' then y' else y' - 399) / 400
  let yoe : Int := y' - era * 400
  let mp : Nat := (m + 9) % 12
  let doy : Int := ((153 * mp + 2) / 5 + d - 1 : Nat)
  let doe : Int := yoe * 365 + yoe / 4 - yoe / 100 + doy
  era * 146097 + doe - 719468

def weekKey (s : String) : String :=
  match parseYMD s with
  | Option.none => ""
  | some (y, m, d) =>
    let days := daysFromCivil y m d
    let mon := (days + 3) % 7
    let yday := days - daysFromCivil y 1 1
    let w := (yday + 7 - mon) / 7
    toString y ++ "-W" ++ (if w < 10 then "0" ++ toString w else toString w)

/-- The GROUP BY key of each aggregation branch: a period string from
the timestamp plus the metric_unit column (which every branch also
groups by). -/
def keyOf (g : Agg) (r : Row) : String × String :=
  let d := r.metric_date.getD ""
  match g with
  | Agg.none => ("", r.metric_unit)
  | Agg.daily => (substrN 10 d, r.metric_unit)
  | Agg.weekly => (weekKey (substrN 10 d), r.metric_unit)
  | Agg.monthly => (substrN 7 d, r.metric_unit)
  | Agg.yearly => (substrN 4 d, r.metric_unit)
  | Agg.total => ("total", r.metric_unit)

/-- Distinct keys in first-occurrence order, as produced by GROUP BY. -/
def dedupF {α : Type} [DecidableEq α] : List α → List α
  | [] => []
  | a :: as => a :: (dedupF as).filter (fun b => b != a)

/-- ORDER BY period DESC comparison on group keys. -/
def perDesc (a b : String × String) : Bool := strLeB b.1 a.1

/-- ORDER BY metric_date DESC comparison on raw rows. -/
def rowDateDesc (a b : Row) : Bool :=
  strLeB (b.metric_date.getD "") (a.metric_date.getD "")

/-- The SELECT row of one group, as every aggregated branch computes it.
The daily branch is the only one selecting MIN/MAX(metric_value); they
are computed here for every branch but are only read by the transform
for non-cumulative kinds (no claim touches a non-cumulative non-daily
aggregation). -/
structure GroupRow where
  period : String
  total_value : Option ℚ
  total_value_converted : Option ℚ
  avg_value : Option ℚ
  min_value : Option ℚ
  max_value : Option ℚ
  sample_count : Nat
  first_sample : String
  last_sample : String
  metric_unit : String
deriving DecidableEq

def mkGroupRow (key : String × String) (rows : List Row) : GroupRow :=
  { period := key.1
    total_value := sqlSum (rows.map Row.metric_value)
    total_value_converted := sqlSum (rows.map Row.metric_value_converted)
    avg_value := sqlAvg (rows.map Row.metric_value)
    min_value := sqlMinQ (rows.map Row.metric_value)
    max_value := sqlMaxQ (rows.map Row.metric_value)
    sample_count := rows.length
    first_sample := minDate rows
    last_sample := maxDate rows
    metric_unit := key.2 }

/-- One element of the aggregated result array (health-api.js lines
767-785). -/
structure AggOut where
  period : String
  value : ℚ
  unit : String
  samples : Nat
  first_sample : String
  last_sample : String
  avgv : Option ℚ
  minv : Option ℚ
  maxv : Option ℚ
deriving DecidableEq

/-- The aggregated-row transform: energy kinds use the converted sum
when it is truthy and fall back to the raw sum (cumulative) or average
otherwise; energy kinds are always labeled kcal; non-cumulative kinds
additionally report avg/min/max.  Math.round(null * 100) / 100 is 0. -/
def aggTransformRow (internal : String) (isCum : Bool) (g : GroupRow) : AggOut :=
  let isEn := isEnergyKind internal
  let useConv := isEn && truthyQ g.total_value_converted
  let v : Option ℚ :=
    if useConv then g.total_value_converted
    else if isCum then g.total_value else g.avg_value
  { period := g.period
    value := round2 (v.getD 0)
    unit := if isEn then "kcal" else g.metric_unit
    samples := g.sample_count
    first_sample := g.first_sample
    last_sample := g.last_sample
    avgv := if isCum then Option.none else some (round2 (g.avg_value.getD 0))
    minv := if isCum then Option.none else some (round2 (g.min_value.getD 0))
    maxv := if isCum then Option.none else some (round2 (g.max_value.getD 0)) }

/-- One element of the raw (granularity none) result array
(health-api.js lines 743-764). -/
structure RawOut where
  recorded_date : Option String
  value : Option ℚ
  unit : String
  device : String
  additional : Option String
deriving DecidableEq

/-- The raw-row transform: energy kinds report the converted value when
truthy, else the raw value; the unit is always labeled kcal for energy
kinds. -/
def rawTransformRow (internal : String) (r : Row) : RawOut :=
  let isEn := isEnergyKind internal
  { recorded_date := r.metric_date
    value := if isEn && truthyQ r.metric_value_converted then r.metric_value_converted
             else r.metric_value
    unit := if isEn then "kcal" else r.metric_unit
    device := r.metric_source
    additional := r.additional_data }

/-- The summary block (health-api.js lines 788-801): sum of the already
rounded per-period values, rounded again. -/
structure Summary where
  total : ℚ
  average_per_period : ℚ
  periods : Nat
  range_start : String
  range_end : String
deriving DecidableEq

def mkSummary (results : List AggOut) (s e : String) : Summary :=
  let tv := (results.map AggOut.value).sum
  { total := round2 tv
    average_per_period := round2 (tv / ((results.length : ℕ) : ℚ))
    periods := results.length
    range_start := s
    range_end := e }

inductive QueryData
  | raw (rows : List RawOut)
  | agg (groups : List AggOut)
deriving DecidableEq

structure QueryOut where
  metric_type : String
  aggregation : String
  data : QueryData
  summary : Option Summary
deriving DecidableEq

/-- The query body applied to the rows selected by the WHERE clause:
raw mode sorts newest-first and takes the limit; aggregated modes group
by (period, unit), order by period DESC, apply the limit (the total
branch has none), transform each group and attach the summary when at
least one group exists. -/
def pipelineCore (matching : List Row) (internal typ : String) (limit : Nat)
    (g : Agg) (s e : String) : QueryOut :=
  let isCum := cumulativeMetrics.contains internal
  match g with
  | Agg.none =>
    let rows := (List.insertionSort (fun a b => rowDateDesc a b = true) matching).take limit
    { metric_type := typ
      aggregation := "none"
      data := QueryData.raw (rows.map (rawTransformRow internal))
      summary := Option.none }
  | gr =>
    let keys := dedupF (matching.map (keyOf gr))
    let sortedKeys := List.insertionSort (fun a b => perDesc a b = true) keys
    let kept := if gr = Agg.total then sortedKeys else sortedKeys.take limit
    let results := kept.map (fun k =>
      aggTransformRow internal isCum (mkGroupRow k (matching.filter (fun r => keyOf gr r == k))))
    let summary :=
      match results with
      | [] => Option.none
      | _ => some (mkSummary results s e)
    { metric_type := typ
      aggregation := aggName gr
      data := QueryData.agg results
      summary := summary }

/-- The wall clock as seen by the query path: the date-only string of
today, and of the cutoff computed from a days count. -/
structure QueryEnv where
  today : String
  cutoff : Nat → String

/-- Date-range computation (health-api.js lines 593-603): explicit
start/end when both are supplied, else (today - days, today) as
date-only strings. -/
def computeRange (env : QueryEnv) (days : Nat) :
    Option String → Option String → String × String
  | some s, some e => (s, e)
  | some _, Option.none => (env.cutoff days, env.today)
  | Option.none, some _ => (env.cutoff days, env.today)
  | Option.none, Option.none => (env.cutoff days, env.today)

/-- getAppleHealthMetrics (health-api.js lines 554-816): resolve the
internal kind (unknown kinds fail), choose the aggregation level with
the per-kind default (unknown levels fail), compute the date range, and
run the matching branch over the rows passing the WHERE clause. -/
def getAppleHealthMetrics (env : QueryEnv) (st : List Row) (typ : String)
    (days limit : Nat) (aggregate startD endD : Option String) :
    Except String QueryOut :=
  match lookupMetric typ with
  | Option.none => Except.error ("Unknown metric type: " ++ typ)
  | some internal =>
    let isCum := cumulativeMetrics.contains internal
    let aggStr := aggregate.getD (if isCum then "daily" else "none")
    match parseAgg aggStr with
    | Option.none => Except.error ("Invalid aggregation level: " ++ aggStr)
    | some g =>
      let r := computeRange env days startD endD
      Except.ok (pipelineCore (st.filter (matchesWhere internal r.1 r.2)) internal typ limit g r.1 r.2)

/-! Accessors used to state the claims over query responses. -/

def summaryTotalE (q : Except String QueryOut) : Option ℚ :=
  match q with
  | Except.ok o => o.summary.map Summary.total
  | Except.error _ => Option.none

def groupValuesE (q : Except String QueryOut) : Option (List ℚ) :=
  match q with
  | Except.ok o =>
    match o.data with
    | QueryData.agg gs => some (gs.map AggOut.value)
    | QueryData.raw _ => Option.none
  | Except.error _ => Option.none

def aggGroupsE (q : Except String QueryOut) : List AggOut :=
  match q with
  | Except.ok o =>
    match o.data with
    | QueryData.agg gs => gs
    | QueryData.raw _ => []
  | Except.error _ => []

/-! ## Derived notions used to state the claims -/

/-- The rows of the store selected by the WHERE clause of a query. -/
def matchingOf (st : List Row) (internal s e : String) : List Row :=
  st.filter (matchesWhere internal s e)

/-- The column a cumulative aggregation effectively totals for a kind:
the converted column for energy kinds, the raw column otherwise. -/
def chosenField (internal : String) (r : Row) : Option ℚ :=
  if isEnergyKind internal then r.metric_value_converted else r.metric_value

def chosenSum (internal : String) (rows : List Row) : ℚ :=
  (rows.filterMap (chosenField internal)).sum

/-- The distinct (day, unit) group keys of a daily query. -/
def dailyKeysOf (st : List Row) (internal s e : String) : List (String × String) :=
  dedupF ((matchingOf st internal s e).map (keyOf Agg.daily))

/-- The rows of one (day, unit) group of a daily query. -/
def fiberOf (st : List Row) (internal s e : String) (k : String × String) : List Row :=
  (matchingOf st internal s e).filter (fun r => keyOf Agg.daily r == k)

/-- A rational that is exactly representable at two decimals, so that
round2 leaves it unchanged. -/
def Cent (q : ℚ) : Prop := ∃ n : ℤ, q = (n : ℚ) / 100

/-- Rows of the store holding a given (metric_kind, source, timestamp)
tuple. -/
def tupleRows (st : List Row) (t s : String) (d : Option String) : List Row :=
  st.filter (fun r => r.metric_type == t && r.metric_source == s && r.metric_date == d)

/-! ## Concrete instances used by counterexamples and witnesses -/

/-- The duplicate timestamp of the documented watch-vs-phone sync
artifact (spec section 8, import-verification notes). -/
def dupT : String := "2025-10-11 08:14:51 +0100"

def mkStepPoint (d : Option String) (q : ℚ) : DataPoint :=
  { date := d, qty := some q, source := some "Gavin Apple Watch",
    totalSleep := Option.none, hrAvg := Option.none }

/-- One batch carrying two step_count samples at the same timestamp with
values 0.2 and 12.1 (the spec scenario for claim C1). -/
def dupPayload : Payload :=
  { metrics := some [{ name := "step_count", units := "count",
                       data := some [mkStepPoint (some dupT) (2/10),
                                     mkStepPoint (some dupT) (121/10)] }],
    workouts := Option.none }

/-- One batch carrying a single step_count sample (used to replay an
identical batch twice for claim C2 and to drive the failure oracle for
claim C7). -/
def oneStepPayload : Payload :=
  { metrics := some [{ name := "step_count", units := "count",
                       data := some [mkStepPoint (some dupT) (121/10)] }],
    workouts := Option.none }

/-- A data point with no timestamp (claim C6). -/
def noDatePoint : DataPoint :=
  { date := Option.none, qty := some 5, source := Option.none,
    totalSleep := Option.none, hrAvg := Option.none }

/-- One batch whose single data point has no timestamp (claim C6). -/
def noDatePayload : Payload :=
  { metrics := some [{ name := "step_count", units := "count",
                       data := some [noDatePoint] }],
    workouts := Option.none }

/-- A step_count row from the real-time export path (claim C8). -/
def realtimeRow : Row :=
  { metric_type := "step_count", metric_source := "health_auto_export",
    metric_date := some "2025-10-10 08:00:00", metric_value := some 10,
    metric_unit := "count", metric_value_converted := some 10,
    additional_data := some "source=iPhone" }

/-- A step_count row from the general export path without watch
metadata (claim C8). -/
def watchlessRow : Row :=
  { metric_type := "step_count", metric_source := "health_export_complete",
    metric_date := some "2025-10-10 08:00:00", metric_value := some 10,
    metric_unit := "count", metric_value_converted := some 10,
    additional_data := some "source=iPhone" }

/-- A step_count row stored for the current day of envFix with a
time-of-day component (claim C10). -/
def c10Row : Row :=
  { metric_type := "step_count", metric_source := "health_auto_export",
    metric_date := some ("2025-10-20" ++ " 08:14:00"), metric_value := some 10,
    metric_unit := "count", metric_value_converted := some 10,
    additional_data := some "source=iPhone" }

/-- The end-to-end energy batch of claim C3: two active_energy samples
for the same source and day, 100 kJ and 50 kcal, one minute apart.  The
Auto Export payload carries the unit per metric entry, so the two
samples arrive as two active_energy metric entries. -/
def energyPayload : Payload :=
  { metrics := some
      [{ name := "active_energy", units := "kJ",
         data := some [{ date := some "2025-10-10 08:00:00", qty := some 100,
                         source := some "iPhone", totalSleep := Option.none,
                         hrAvg := Option.none }] },
       { name := "active_energy", units := "kcal",
         data := some [{ date := some "2025-10-10 08:01:00", qty := some 50,
                         source := some "iPhone", totalSleep := Option.none,
                         hrAvg := Option.none }] }],
    workouts := Option.none }

/-- A fixed clock for the concrete queries (the claims settled on it do
not depend on the clock because they pass explicit dates). -/
def envFix : QueryEnv := { today := "2025-10-20", cutoff := fun _ => "2025-10-01" }

def energyStore : List Row := (saveAutoExportData energyPayload emptyDB).1.metrics

def energyDailyQ : Except String QueryOut :=
  getAppleHealthMetrics envFix energyStore "active-energy" 30 100
    (some "daily") (some "2025-10-10") (some "2025-10-11")

/-- A step_count row whose value 0.333 is not representable at two
decimals, for the claim C5 counterexample. -/
def thirdRow (d : String) : Row :=
  metricRowOf "step_count" "health_auto_export" (some d) (some (333/1000)) "count"
    (some "source=iPhone")

/-- Ten days of such rows: the per-day rounding error accumulates to
0.03, beyond the 2-decimal precision. -/
def driftStore : List Row :=
  [thirdRow "2025-01-01 08:00:00", thirdRow "2025-01-02 08:00:00",
   thirdRow "2025-01-03 08:00:00", thirdRow "2025-01-04 08:00:00",
   thirdRow "2025-01-05 08:00:00", thirdRow "2025-01-06 08:00:00",
   thirdRow "2025-01-07 08:00:00", thirdRow "2025-01-08 08:00:00",
   thirdRow "2025-01-09 08:00:00", thirdRow "2025-01-10 08:00:00"]

def driftDailyQ : Except String QueryOut :=
  getAppleHealthMetrics envFix driftStore "steps" 30 100
    (some "daily") (some "2025-01-01") (some "2025-01-31")

def driftTotalQ : Except String QueryOut :=
  getAppleHealthMetrics envFix driftStore "steps" 30 100
    (some "total") (some "2025-01-01") (some "2025-01-31")

/-- A store whose per-day sums are exact cents, for the claim C5
witness. -/
def centStore : List Row :=
  [metricRowOf "step_count" "health_auto_export" (some "2025-01-01 08:00:00")
     (some (1/4)) "count" (some "source=iPhone"),
   metricRowOf "step_count" "health_auto_export" (some "2025-01-02 09:00:00")
     (some (1/2)) "count" (some "source=iPhone")]

/-- The failure oracle under which exactly the second runQuery call (the
first sample insert) fails. -/
def failSecond : Nat → Bool := fun k => k == 1

/-- The success-status import record an ingest call inserts first. -/
def successRec (p : Payload) : ImportRec :=
  { status := "success",
    metrics_count := (p.metrics.getD []).length,
    workouts_count := (p.workouts.getD []).length }

/-- The group list produced by the daily branch over the matching rows. -/
def dailyResults (M : List Row) (internal : String) (limit : Nat) : List AggOut :=
  ((List.insertionSort (fun a b => perDesc a b = true)
      (dedupF (M.map (keyOf Agg.daily)))).take limit).map
    (fun k => aggTransformRow internal (cumulativeMetrics.contains internal)
      (mkGroupRow k (M.filter (fun r => keyOf Agg.daily r == k))))

/-- The group list produced by the total branch over the matching rows. -/
def totalResults (M : List Row) (internal : String) : List AggOut :=
  (List.insertionSort (fun a b => perDesc a b = true)
      (dedupF (M.map (keyOf Agg.total)))).map
    (fun k => aggTransformRow internal (cumulativeMetrics.contains internal)
      (mkGroupRow k (M.filter (fun r => keyOf Agg.total r == k))))

/-! ## Helper lemmas -/

theorem lexLt_append_self (l m : List Char) (hm : m ≠ []) : lexLt l (l ++ m) = true := by
  induction l with
  | nil =>
    cases m with
    | nil => exact absurd rfl hm
    | cons c cs => rfl
  | cons a as ih => simp [lexLt, lt_irrefl, ih]

theorem strLeB_append_self_false (s t : String) (ht : t ≠ "") : strLeB (s ++ t) s = false := by
  have hm : t.data ≠ [] := by
    intro h
    apply ht
    cases t
    simp_all
  have hd : (s ++ t).data = s.data ++ t.data := rfl
  simp [strLeB, hd, lexLt_append_self s.data t.data hm]

theorem filter_matches_device (st : List Row) (s e : String) :
    (st.filter (deviceFilterPass "step_count")).filter (matchesWhere "step_count" s e)
      = st.filter (matchesWhere "step_count" s e) := by
  rw [List.filter_filter]
  apply List.filter_congr
  intro r _
  cases hd : deviceFilterPass "step_count" r <;> simp [matchesWhere, hd]

theorem mem_dedupF {α : Type} [DecidableEq α] (l : List α) (a : α) :
    a ∈ dedupF l ↔ a ∈ l := by
  induction l with
  | nil => simp [dedupF]
  | cons b bs ih =>
    simp only [dedupF, List.mem_cons, List.mem_filter]
    constructor
    · rintro (h | ⟨h, _⟩)
      · exact Or.inl h
      · exact Or.inr (ih.mp h)
    · rintro (h | h)
      · exact Or.inl h
      · by_cases hab : a = b
        · exact Or.inl hab
        · exact Or.inr ⟨ih.mpr h, by simp [hab]⟩

theorem nodup_dedupF {α : Type} [DecidableEq α] (l : List α) : (dedupF l).Nodup := by
  induction l with
  | nil => simp [dedupF]
  | cons b bs ih =>
    simp only [dedupF, List.nodup_cons]
    refine ⟨?_, List.Nodup.filter _ ih⟩
    intro hmem
    have := (List.mem_filter.mp hmem).2
    simp at this

theorem dedupF_ne_nil {α : Type} [DecidableEq α] (l : List α) (h : l ≠ []) :
    dedupF l ≠ [] := by
  cases l with
  | nil => exact absurd rfl h
  | cons a as => simp [dedupF]

theorem dedupF_const {α κ : Type} [DecidableEq κ] (key : α → κ) (c : κ) :
    ∀ l : List α, (∀ x ∈ l, key x = c) → l ≠ [] → dedupF (l.map key) = [c] := by
  intro l
  induction l with
  | nil => intro _ h; exact absurd rfl h
  | cons b bs ih =>
    intro hall _
    have hb : key b = c := hall b (List.mem_cons_self b bs)
    simp only [List.map_cons, dedupF, hb]
    have hsub : ∀ x ∈ dedupF (bs.map key), x = c := by
      intro x hx
      have hx2 := (mem_dedupF _ _).mp hx
      obtain ⟨r, hr, hrx⟩ := List.mem_map.mp hx2
      rw [← hrx]
      exact hall r (List.mem_cons_of_mem b hr)
    have : (dedupF (bs.map key)).filter (fun x => x != c) = [] := by
      apply List.filter_eq_nil_iff.mpr
      intro x hx
      simp [hsub x hx]
    rw [this]

theorem sum_map_filter_split {α : Type} (p : α → Bool) (f : α → ℚ) :
    ∀ l : List α,
      ((l.filter p).map f).sum + ((l.filter (fun x => !(p x))).map f).sum = (l.map f).sum := by
  intro l
  induction l with
  | nil => simp
  | cons a as ih =>
    cases hp : p a <;> simp [List.filter_cons, hp, ← ih] <;> ring

theorem fiber_sum {α κ : Type} [BEq κ] [LawfulBEq κ] (key : α → κ) (f : α → ℚ) :
    ∀ (K : List κ) (l : List α), K.Nodup → (∀ x ∈ l, key x ∈ K) →
      (K.map (fun k => ((l.filter (fun x => key x == k)).map f).sum)).sum = (l.map f).sum := by
  intro K
  induction K with
  | nil =>
    intro l _ hall
    cases l with
    | nil => simp
    | cons a as => exact absurd (hall a (List.mem_cons_self a as)) (by simp)
  | cons k ks ih =>
    intro l hnd hall
    have hnd2 := (List.nodup_cons.mp hnd).2
    have hknotin := (List.nodup_cons.mp hnd).1
    have hrest : ∀ k' ∈ ks,
        ((l.filter (fun x => !(key x == k))).filter (fun x => key x == k'))
          = (l.filter (fun x => key x == k')) := by
      intro k' hk'
      rw [List.filter_filter]
      apply List.filter_congr
      intro x _
      cases hxk : (key x == k') with
      | true =>
        have h1 : key x = k' := eq_of_beq hxk
        have hne : (key x == k) = false := by
          apply beq_eq_false_iff_ne.mpr
          intro hkk
          rw [h1] at hkk
          rw [hkk] at hk'
          exact hknotin hk'
        simp [hxk, hne]
      | false => simp [hxk]
    have hmap : (ks.map (fun k' => ((l.filter (fun x => key x == k')).map f).sum))
        = (ks.map (fun k' => (((l.filter (fun x => !(key x == k))).filter (fun x => key x == k')).map f).sum)) := by
      apply List.map_congr_left
      intro k' hk'
      rw [hrest k' hk']
    have hall2 : ∀ x ∈ l.filter (fun x => !(key x == k)), key x ∈ ks := by
      intro x hx
      obtain ⟨hxl, hxk⟩ := List.mem_filter.mp hx
      have := hall x hxl
      simp at hxk
      simp only [List.mem_cons] at this
      rcases this with h | h
      · exact absurd h hxk
      · exact h
    calc ((k :: ks).map (fun k' => ((l.filter (fun x => key x == k')).map f).sum)).sum
        = ((l.filter (fun x => key x == k)).map f).sum
          + (ks.map (fun k' => ((l.filter (fun x => key x == k')).map f).sum)).sum := by
          simp
      _ = ((l.filter (fun x => key x == k)).map f).sum
          + ((l.filter (fun x => !(key x == k))).map f).sum := by
          rw [hmap, ih (l.filter (fun x => !(key x == k))) hnd2 hall2]
      _ = (l.map f).sum := sum_map_filter_split _ f l

theorem reduceOption_map_eq {α : Type} (f : α → Option ℚ) (l : List α) :
    (l.map f).reduceOption = l.filterMap f := by
  unfold List.reduceOption
  rw [List.filterMap_map]
  rfl

theorem filterMap_sum_getD {α : Type} (f : α → Option ℚ) :
    ∀ l : List α, (l.filterMap f).sum = (l.map (fun x => (f x).getD 0)).sum := by
  intro l
  induction l with
  | nil => rfl
  | cons a as ih => cases hf : f a <;> simp [List.filterMap_cons, hf, ih]

theorem sqlSum_eq_some (vals : List (Option ℚ)) (h : vals.reduceOption ≠ []) :
    sqlSum vals = some vals.reduceOption.sum := by
  unfold sqlSum
  cases hv : vals.reduceOption with
  | nil => exact absurd hv h
  | cons v vs => simp

theorem sqlSum_getD (vals : List (Option ℚ)) :
    (sqlSum vals).getD 0 = vals.reduceOption.sum := by
  unfold sqlSum
  cases hv : vals.reduceOption with
  | nil => simp
  | cons v vs => simp

theorem round2_int (n : ℤ) : round2 ((n : ℚ) / 100) = (n : ℚ) / 100 := by
  unfold round2 jround
  have h1 : (n : ℚ) / 100 * 100 = (n : ℚ) := by
    field_simp
  rw [h1]
  have h2 : Int.floor ((n : ℚ) + 1/2) = n := by
    rw [add_comm, Int.floor_add_int]
    norm_num
  rw [h2]

theorem round2_cent (q : ℚ) (h : Cent q) : round2 q = q := by
  obtain ⟨n, hn⟩ := h
  rw [hn, round2_int]

theorem cent_add (a b : ℚ) (ha : Cent a) (hb : Cent b) : Cent (a + b) := by
  obtain ⟨m, hm⟩ := ha
  obtain ⟨n, hn⟩ := hb
  refine ⟨m + n, ?_⟩
  rw [hm, hn]
  push_cast
  ring

theorem cent_sum (l : List ℚ) (h : ∀ x ∈ l, Cent x) : Cent l.sum := by
  induction l with
  | nil => exact ⟨0, by simp⟩
  | cons a as ih =>
    simp only [List.sum_cons]
    exact cent_add a as.sum (h a (List.mem_cons_self a as))
      (ih (fun x hx => h x (List.mem_cons_of_mem a hx)))

theorem filter_all_true {α : Type} (p : α → Bool) :
    ∀ l : List α, (∀ x ∈ l, p x = true) → l.filter p = l := by
  intro l h
  exact List.filter_eq_self.mpr h

theorem groupValue_cumulative (internal : String)
    (hcum : cumulativeMetrics.contains internal = true)
    (k : String × String) (rows : List Row) (hne : rows ≠ [])
    (hconv : isEnergyKind internal = true →
      ∀ r ∈ rows, ∃ c, r.metric_value_converted = some c ∧ 0 < c) :
    (aggTransformRow internal (cumulativeMetrics.contains internal) (mkGroupRow k rows)).value
      = round2 (chosenSum internal rows) := by
  cases he : isEnergyKind internal with
  | false =>
    have hv : (mkGroupRow k rows).total_value.getD 0 = chosenSum internal rows := by
      show (sqlSum (rows.map Row.metric_value)).getD 0 = chosenSum internal rows
      rw [sqlSum_getD, reduceOption_map_eq]
      unfold chosenSum chosenField
      simp [he]
    unfold aggTransformRow
    simp only [he, hcum, Bool.false_and, Bool.if_false_left, if_true]
    simp [hv]
  | true =>
    have hall := hconv he
    have hred : (rows.map Row.metric_value_converted).reduceOption
        = rows.filterMap Row.metric_value_converted := reduceOption_map_eq _ rows
    have hcs_ne : rows.filterMap Row.metric_value_converted ≠ [] := by
      obtain ⟨h0, t0, hrows⟩ := List.exists_cons_of_ne_nil hne
      obtain ⟨c, hc, _⟩ := hall h0 (hrows ▸ List.mem_cons_self h0 t0)
      intro hnil
      have hmem : c ∈ rows.filterMap Row.metric_value_converted :=
        List.mem_filterMap.mpr ⟨h0, hrows ▸ List.mem_cons_self h0 t0, hc⟩
      rw [hnil] at hmem
      exact absurd hmem (List.not_mem_nil c)
    have hpos : ∀ x ∈ rows.filterMap Row.metric_value_converted, 0 < x := by
      intro x hx
      obtain ⟨r, hr, hrx⟩ := List.mem_filterMap.mp hx
      obtain ⟨c, hc, hcpos⟩ := hall r hr
      rw [hc] at hrx
      injection hrx with h'
      rw [← h']
      exact hcpos
    have hsum_pos : 0 < (rows.filterMap Row.metric_value_converted).sum :=
      List.sum_pos _ hpos hcs_ne
    have hconvsum : sqlSum (rows.map Row.metric_value_converted)
        = some (rows.filterMap Row.metric_value_converted).sum := by
      rw [sqlSum_eq_some, hred]
      rw [hred]
      exact hcs_ne
    have htruthy : truthyQ (mkGroupRow k rows).total_value_converted = true := by
      show truthyQ (sqlSum (rows.map Row.metric_value_converted)) = true
      rw [hconvsum]
      unfold truthyQ
      simp [ne_of_gt hsum_pos]
    have hcsum : chosenSum internal rows = (rows.filterMap Row.metric_value_converted).sum := by
      unfold chosenSum chosenField
      simp [he]
    unfold aggTransformRow
    simp only [he, htruthy, Bool.and_self, if_true]
    show round2 ((sqlSum (rows.map Row.metric_value_converted)).getD 0)
        = round2 (chosenSum internal rows)
    rw [hconvsum, hcsum]
    rfl

theorem pipelineCore_daily_reduce (M : List Row) (internal typ : String)
    (limit : Nat) (s e : String) :
    pipelineCore M internal typ limit Agg.daily s e
      = { metric_type := typ
          aggregation := "daily"
          data := QueryData.agg (dailyResults M internal limit)
          summary := match dailyResults M internal limit with
                     | [] => Option.none
                     | _ => some (mkSummary (dailyResults M internal limit) s e) } := rfl

theorem pipelineCore_total_reduce (M : List Row) (internal typ : String)
    (limit : Nat) (s e : String) :
    pipelineCore M internal typ limit Agg.total s e
      = { metric_type := typ
          aggregation := "total"
          data := QueryData.agg (totalResults M internal)
          summary := match totalResults M internal with
                     | [] => Option.none
                     | _ => some (mkSummary (totalResults M internal) s e) } := rfl

theorem fiber_decomposition (internal : String) (M : List Row) :
    ((dedupF (M.map (keyOf Agg.daily))).map
        (fun k => chosenSum internal (M.filter (fun r => keyOf Agg.daily r == k)))).sum
      = (M.map (fun r => (chosenField internal r).getD 0)).sum := by
  have hcong : ∀ k, chosenSum internal (M.filter (fun r => keyOf Agg.daily r == k))
      = ((M.filter (fun r => keyOf Agg.daily r == k)).map
          (fun r => (chosenField internal r).getD 0)).sum := by
    intro k
    unfold chosenSum
    exact filterMap_sum_getD _ _
  calc ((dedupF (M.map (keyOf Agg.daily))).map
          (fun k => chosenSum internal (M.filter (fun r => keyOf Agg.daily r == k)))).sum
      = ((dedupF (M.map (keyOf Agg.daily))).map
          (fun k => ((M.filter (fun r => keyOf Agg.daily r == k)).map
            (fun r => (chosenField internal r).getD 0)).sum)).sum := by
        apply congrArg List.sum
        exact List.map_congr_left (fun k _ => hcong k)
    _ = (M.map (fun r => (chosenField internal r).getD 0)).sum :=
        fiber_sum (keyOf Agg.daily) (fun r => (chosenField internal r).getD 0)
          (dedupF (M.map (keyOf Agg.daily))) M (nodup_dedupF _)
          (fun r hr => (mem_dedupF _ _).mpr (List.mem_map.mpr ⟨r, hr, rfl⟩))

theorem chosen_total_cent (internal : String) (M : List Row)
    (hcent : ∀ k ∈ dedupF (M.map (keyOf Agg.daily)),
      Cent (chosenSum internal (M.filter (fun r => keyOf Agg.daily r == k)))) :
    Cent ((M.map (fun r => (chosenField internal r).getD 0)).sum) := by
  rw [← fiber_decomposition internal M]
  apply cent_sum
  intro x hx
  obtain ⟨k, hk, hxk⟩ := List.mem_map.mp hx
  rw [← hxk]
  exact hcent k hk

theorem daily_summary_total (internal typ : String) (limit : Nat) (s e : String)
    (M : List Row)
    (hcum : cumulativeMetrics.contains internal = true)
    (hne : M ≠ [])
    (hconv : isEnergyKind internal = true →
      ∀ r ∈ M, ∃ c, r.metric_value_converted = some c ∧ 0 < c)
    (hcent : ∀ k ∈ dedupF (M.map (keyOf Agg.daily)),
      Cent (chosenSum internal (M.filter (fun r => keyOf Agg.daily r == k))))
    (hlim : (dedupF (M.map (keyOf Agg.daily))).length ≤ limit) :
    (pipelineCore M internal typ limit Agg.daily s e).summary.map Summary.total
      = some ((M.map (fun r => (chosenField internal r).getD 0)).sum) := by
  have hperm := List.perm_insertionSort (fun a b => perDesc a b = true)
    (dedupF (M.map (keyOf Agg.daily)))
  have htake : (List.insertionSort (fun a b => perDesc a b = true)
        (dedupF (M.map (keyOf Agg.daily)))).take limit
      = List.insertionSort (fun a b => perDesc a b = true)
          (dedupF (M.map (keyOf Agg.daily))) :=
    List.take_of_length_le (by rw [hperm.length_eq]; exact hlim)
  have hvals : ∀ k ∈ dedupF (M.map (keyOf Agg.daily)),
      (aggTransformRow internal (cumulativeMetrics.contains internal)
        (mkGroupRow k (M.filter (fun r => keyOf Agg.daily r == k)))).value
        = chosenSum internal (M.filter (fun r => keyOf Agg.daily r == k)) := by
    intro k hk
    have hk3 : k ∈ M.map (keyOf Agg.daily) := (mem_dedupF _ _).mp hk
    obtain ⟨r, hr, hrk⟩ := List.mem_map.mp hk3
    have hfne : M.filter (fun r => keyOf Agg.daily r == k) ≠ [] := by
      intro hnil
      have hmem : r ∈ M.filter (fun r => keyOf Agg.daily r == k) :=
        List.mem_filter.mpr ⟨hr, by simp [hrk]⟩
      rw [hnil] at hmem
      exact absurd hmem (List.not_mem_nil r)
    have hsub : ∀ x ∈ M.filter (fun r => keyOf Agg.daily r == k), x ∈ M :=
      fun x hx => (List.mem_filter.mp hx).1
    rw [groupValue_cumulative internal hcum k _ hfne
      (fun hE x hx => hconv hE x (hsub x hx))]
    exact round2_cent _ (hcent k hk)
  have hmapval : (dailyResults M internal limit).map AggOut.value
      = (List.insertionSort (fun a b => perDesc a b = true)
          (dedupF (M.map (keyOf Agg.daily)))).map
            (fun k => chosenSum internal (M.filter (fun r => keyOf Agg.daily r == k))) := by
    unfold dailyResults
    rw [htake, List.map_map]
    exact List.map_congr_left (fun k hk => hvals k (hperm.mem_iff.mp hk))
  have hsum : ((dailyResults M internal limit).map AggOut.value).sum
      = (M.map (fun r => (chosenField internal r).getD 0)).sum := by
    rw [hmapval]
    rw [List.Perm.sum_eq (hperm.map
      (fun k => chosenSum internal (M.filter (fun r => keyOf Agg.daily r == k))))]
    exact fiber_decomposition internal M
  have hScent := chosen_total_cent internal M hcent
  have hkeys_ne : dedupF (M.map (keyOf Agg.daily)) ≠ [] :=
    dedupF_ne_nil _ (fun h => hne (List.map_eq_nil_iff.mp h))
  have hres_ne : dailyResults M internal limit ≠ [] := by
    unfold dailyResults
    rw [htake]
    intro h0
    rw [List.map_eq_nil_iff] at h0
    exact hkeys_ne ((h0 ▸ hperm).symm.eq_nil)
  have hfinal : (mkSummary (dailyResults M internal limit) s e).total
      = (M.map (fun r => (chosenField internal r).getD 0)).sum := by
    show round2 (((dailyResults M internal limit).map AggOut.value).sum) = _
    rw [hsum]
    exact round2_cent _ hScent
  rw [pipelineCore_daily_reduce]
  show (match dailyResults M internal limit with
        | [] => Option.none
        | _ => some (mkSummary (dailyResults M internal limit) s e)).map Summary.total
      = some ((M.map (fun r => (chosenField internal r).getD 0)).sum)
  rcases hc : dailyResults M internal limit with _ | ⟨g0, gs⟩
  · exact absurd hc hres_ne
  · rw [hc] at hfinal
    exact congrArg some hfinal

theorem total_single_value (internal : String) (M : List Row) (u : String)
    (hcum : cumulativeMetrics.contains internal = true)
    (hne : M ≠ [])
    (hu : ∀ r ∈ M, r.metric_unit = u)
    (hconv : isEnergyKind internal = true →
      ∀ r ∈ M, ∃ c, r.metric_value_converted = some c ∧ 0 < c) :
    (totalResults M internal).map AggOut.value = [round2 (chosenSum internal M)] := by
  have hkey : ∀ r ∈ M, keyOf Agg.total r = ("total", u) := by
    intro r hr
    show ("total", r.metric_unit) = ("total", u)
    rw [hu r hr]
  have hkeys : dedupF (M.map (keyOf Agg.total)) = [("total", u)] :=
    dedupF_const (keyOf Agg.total) ("total", u) M hkey hne
  have hfil : M.filter (fun r => keyOf Agg.total r == ("total", u)) = M := by
    apply filter_all_true
    intro r hr
    simp [hkey r hr]
  unfold totalResults
  rw [hkeys]
  have hsort : List.insertionSort (fun a b => perDesc a b = true)
      [(("total", u) : String × String)] = [("total", u)] := rfl
  rw [hsort]
  simp only [List.map_cons, List.map_nil]
  rw [hfil]
  rw [groupValue_cumulative internal hcum ("total", u) M hne hconv]

/-! Lemmas about the ingestion loops. -/

theorem rowOfPoint_date (name units : String) (dp : DataPoint) :
    (rowOfPoint name units dp).metric_date = dp.date := by
  by_cases h1 : name = "sleep_analysis" <;> by_cases h2 : name = "heart_rate" <;>
    simp [rowOfPoint, metricRowOf, h1, h2]

theorem processPoints_noFail (name units : String) :
    ∀ (dps : List DataPoint) (s : DBState) (n : Nat),
      processPoints noFail name units dps s n
        = ({ s with metrics := s.metrics ++ dps.map (rowOfPoint name units),
                    calls := s.calls + dps.length }, n + dps.length, true) := by
  intro dps
  induction dps with
  | nil => intro s n; simp [processPoints]
  | cons dp rest ih =>
    intro s n
    simp only [processPoints, saveHealthMetricE, tryRun, noFail, insertMetricOp,
      Bool.false_eq_true, if_false, if_true]
    rw [ih]
    cases s
    simp [List.append_assoc]
    omega

theorem processPoints_imports (f : Nat → Bool) (name units : String) :
    ∀ (dps : List DataPoint) (s : DBState) (n : Nat),
      ((processPoints f name units dps s n).1).imports = s.imports := by
  intro dps
  induction dps with
  | nil => intro s n; rfl
  | cons dp rest ih =>
    intro s n
    simp only [processPoints, saveHealthMetricE, tryRun]
    by_cases hf : f s.calls
    · simp [hf]
    · simp [hf, insertMetricOp, ih]

theorem processMetrics_imports (f : Nat → Bool) :
    ∀ (ms : List Metric) (s : DBState) (n : Nat),
      ((processMetrics f ms s n).1).imports = s.imports := by
  intro ms
  induction ms with
  | nil => intro s n; rfl
  | cons m rest ih =>
    intro s n
    cases hd : m.data with
    | none => simp only [processMetrics, hd]; exact ih s n
    | some dps =>
      simp only [processMetrics, hd]
      have hp := processPoints_imports f m.name m.units dps s n
      cases hok : (processPoints f m.name m.units dps s n).2.2
      · simp [hok, hp]
      · simp [hok, ih, hp]

theorem processWorkouts_imports (f : Nat → Bool) :
    ∀ (ws : List Workout) (s : DBState) (n : Nat),
      ((processWorkouts f ws s n).1).imports = s.imports := by
  intro ws
  induction ws with
  | nil => intro s n; rfl
  | cons w rest ih =>
    intro s n
    simp only [processWorkouts, saveHealthMetricE, tryRun]
    by_cases hf : f s.calls
    · simp [hf]
    · simp [hf, insertMetricOp, ih]

theorem logSyncE_imports (f : Nat → Bool) (s : DBState) :
    (logSyncE f s).imports = s.imports := by
  unfold logSyncE tryRun insertSyncOp
  by_cases hf : f s.calls <;> simp [hf]

theorem errorPath_imports (f : Nat → Bool) (s : DBState) :
    (errorPath f s).1.imports = s.imports
    ∨ (errorPath f s).1.imports
        = s.imports ++ [{ status := "error", metrics_count := 0, workouts_count := 0 }] := by
  unfold errorPath
  rw [logSyncE_imports]
  unfold tryRun insertImportOp
  by_cases hf : f s.calls
  · left; simp [hf]
  · right; simp [hf]

/-! ## The claims -/

/-- C1: the claim that at most one row is stored per (metric_kind,
source, timestamp) tuple fails on the code: CREATE TABLE health_metrics
declares no UNIQUE constraint, so INSERT OR IGNORE never ignores
anything.  Ingesting one batch holding the two documented duplicate
samples (values 0.2 and 12.1 at the same timestamp) stores two rows for
the tuple, with both values kept. -/
theorem C1_duplicate_tuple_stored_twice :
    (tupleRows (saveAutoExportData dupPayload emptyDB).1.metrics "step_count"
        "health_auto_export" (some dupT)).map Row.metric_value
      = [some (2/10), some (121/10)]
    ∧ (saveAutoExportData dupPayload emptyDB).1.metrics.length = 2 := by
  decide

/-- C2: the claim that re-submitting an identical batch returns
samplesStored = 0 for previously seen tuples fails on the code: the
second identical ingest call stores the sample again (no uniqueness
constraint exists) and returns metricsStored = 1, because the counter is
incremented for every processed data point without consulting the
number of affected rows. -/
theorem C2_resubmission_counts_again :
    (saveAutoExportData oneStepPayload
        (saveAutoExportData oneStepPayload emptyDB).1).2
      = some { metricsStored := 1, workoutsStored := 0 }
    ∧ (saveAutoExportData oneStepPayload
        (saveAutoExportData oneStepPayload emptyDB).1).1.metrics.length = 2 := by
  decide

/-- C3: the claim that the mixed-unit energy scenario yields one daily
group with value about 73.9 and sample count 2 fails on the code: every
aggregated branch also groups by metric_unit, so the kJ sample and the
kcal sample land in two separate groups of one sample each. -/
theorem C3_counterexample_two_groups :
    (aggGroupsE energyDailyQ).map AggOut.samples = [1, 1]
    ∧ (aggGroupsE energyDailyQ).length = 2 := by
  decide

/-- C3 amended: after ingesting the two-sample energy batch, the daily
query over that day returns two groups, one per stored unit, each with
one sample and both labeled kcal: the kJ-stored group reports the
converted 23.9 and the kcal-stored group reports 50; the summary total
over the two groups is the expected 73.9. -/
theorem C3_amended_two_unit_groups :
    (aggGroupsE energyDailyQ).length = 2
    ∧ (∃ g ∈ aggGroupsE energyDailyQ,
        g.period = "2025-10-10" ∧ g.value = 239/10 ∧ g.unit = "kcal" ∧ g.samples = 1)
    ∧ (∃ g ∈ aggGroupsE energyDailyQ,
        g.period = "2025-10-10" ∧ g.value = 50 ∧ g.unit = "kcal" ∧ g.samples = 1)
    ∧ summaryTotalE energyDailyQ = some (739/10) := by
  decide

/-- C5: the claim that the daily summary total equals the total
granularity value to 2-decimal rounding precision fails on the code:
the summary sums per-day values that were already rounded, so the error
accumulates; ten days of value 0.333 give a daily summary total of 3.30
against a total-granularity value of 3.33, a gap of 0.03 beyond the
stated precision. -/
theorem C5_counterexample_rounding_drift :
    summaryTotalE driftDailyQ = some (33/10)
    ∧ groupValuesE driftTotalQ = some [333/100]
    ∧ (1/100 : ℚ) < 333/100 - 33/10 := by
  decide

/-- C6: the claim that a data point with a missing timestamp is rejected
and counted as skipped fails on the code: no timestamp validation
exists, so the point is stored with a NULL metric_date and counted in
metricsStored. -/
theorem C6_counterexample_missing_timestamp_stored :
    (saveAutoExportData noDatePayload emptyDB).2
      = some { metricsStored := 1, workoutsStored := 0 }
    ∧ (saveAutoExportData noDatePayload emptyDB).1.metrics.map Row.metric_date
        = [Option.none] := by
  decide

/-- C7: the claim that every ingest call creates exactly one
audit record fails on the code: when a sample insert fails after the
initial audit insert succeeded, the catch block inserts a second,
error-status audit record, so the call leaves two records. -/
theorem C7_counterexample_two_import_records :
    ((saveAutoExportDataE failSecond oneStepPayload emptyDB).1.imports.map ImportRec.status)
      = ["success", "error"]
    ∧ (saveAutoExportDataE failSecond oneStepPayload emptyDB).2 = Option.none := by
  decide

/-- C4: for every sample written by saveHealthMetric, the write appends
one row; the raw value and unit are stored unchanged in metric_value
and metric_unit; for an energy kind, a kJ sample stores raw divided by
4.184 in metric_value_converted and any other unit (kcal included)
stores the raw value there; every non-energy kind stores the raw value
there. -/
theorem C4_unit_normalization (st : List Row) (type source unit : String)
    (date : Option String) (v : ℚ) (extra : Option String) :
    saveHealthMetric st type source date (some v) unit extra
      = st ++ [metricRowOf type source date (some v) unit extra]
    ∧ (metricRowOf type source date (some v) unit extra).metric_value = some v
    ∧ (metricRowOf type source date (some v) unit extra).metric_unit = unit
    ∧ ((type = "active_energy" ∨ type = "basal_energy_burned") → unit = "kJ" →
        (metricRowOf type source date (some v) unit extra).metric_value_converted
          = some (v / (4184/1000)))
    ∧ ((type = "active_energy" ∨ type = "basal_energy_burned") → unit ≠ "kJ" →
        (metricRowOf type source date (some v) unit extra).metric_value_converted = some v)
    ∧ (type ≠ "active_energy" → type ≠ "basal_energy_burned" →
        (metricRowOf type source date (some v) unit extra).metric_value_converted = some v) := by
  refine ⟨rfl, rfl, rfl, ?_, ?_, ?_⟩
  · intro ht hu
    rcases ht with ht | ht <;> subst ht <;> subst hu <;> simp [metricRowOf, convQ]
  · intro ht hu
    rcases ht with ht | ht <;> subst ht <;> simp [metricRowOf, convQ, hu]
  · intro h1 h2
    simp [metricRowOf, convQ, h1, h2]

/-- C4 witness: a 4.184 kJ energy sample normalizes to exactly 1 kcal, a
kcal energy sample and a non-energy sample pass through unchanged. -/
theorem C4_unit_normalization_witness :
    (metricRowOf "active_energy" "health_auto_export" (some "2025-10-10 08:00:00")
        (some (523/125)) "kJ" Option.none).metric_value_converted = some 1
    ∧ (metricRowOf "active_energy" "health_auto_export" Option.none
        (some 7) "kcal" Option.none).metric_value_converted = some 7
    ∧ (metricRowOf "step_count" "health_auto_export" Option.none
        (some 5) "count" Option.none).metric_value_converted = some 5 := by
  refine ⟨?_, ?_, ?_⟩
  · have h := (C4_unit_normalization [] "active_energy" "health_auto_export" "kJ"
      (some "2025-10-10 08:00:00") (523/125) Option.none).2.2.2.1 (Or.inl rfl) rfl
    rw [h]
    norm_num
  · exact (C4_unit_normalization [] "active_energy" "health_auto_export" "kcal"
      Option.none 7 Option.none).2.2.2.2.1 (Or.inl rfl) (by decide)
  · exact (C4_unit_normalization [] "step_count" "health_auto_export" "count"
      Option.none 5 Option.none).2.2.2.2.2 (by decide) (by decide)

/-- C9: for the energy kinds, whenever the converted value is falsy the
query path falls back to the raw value: an aggregated group whose
summed converted column is NULL or exactly 0 reports the rounded raw
sum, a raw-mode sample whose converted column is NULL or 0 reports its
raw value, and in both cases the reported unit is still kcal. -/
theorem C9_energy_falsy_fallback (internal : String) (g : GroupRow) (r : Row)
    (hk : internal = "active_energy" ∨ internal = "basal_energy_burned")
    (hg : g.total_value_converted = Option.none ∨ g.total_value_converted = some 0)
    (hr : r.metric_value_converted = Option.none ∨ r.metric_value_converted = some 0) :
    (aggTransformRow internal (cumulativeMetrics.contains internal) g).value
        = round2 (g.total_value.getD 0)
    ∧ (aggTransformRow internal (cumulativeMetrics.contains internal) g).unit = "kcal"
    ∧ (rawTransformRow internal r).value = r.metric_value
    ∧ (rawTransformRow internal r).unit = "kcal" := by
  rcases hk with h | h <;> subst h <;>
    rcases hg with hg | hg <;> rcases hr with hr | hr <;>
      refine ⟨?_, ?_, ?_, ?_⟩ <;>
        simp [aggTransformRow, rawTransformRow, isEnergyKind, truthyQ, hg, hr,
          cumulativeMetrics]

/-- C9 witness: a group whose converted sum is exactly 0 with raw sum
300 reports 300 kcal, and a raw sample with NULL converted value and raw
value 40 reports 40 kcal. -/
theorem C9_energy_falsy_fallback_witness :
    (aggTransformRow "active_energy" (cumulativeMetrics.contains "active_energy")
        { period := "2025-10-10", total_value := some 300,
          total_value_converted := some 0, avg_value := some 300,
          min_value := some 300, max_value := some 300, sample_count := 1,
          first_sample := "2025-10-10 08:00:00", last_sample := "2025-10-10 08:00:00",
          metric_unit := "kJ" }).value = 300
    ∧ (rawTransformRow "active_energy"
        { metric_type := "active_energy", metric_source := "health_auto_export",
          metric_date := some "2025-10-10 08:00:00", metric_value := some 40,
          metric_unit := "kJ", metric_value_converted := Option.none,
          additional_data := Option.none }).value = some 40
    ∧ (rawTransformRow "active_energy"
        { metric_type := "active_energy", metric_source := "health_auto_export",
          metric_date := some "2025-10-10 08:00:00", metric_value := some 40,
          metric_unit := "kJ", metric_value_converted := Option.none,
          additional_data := Option.none }).unit = "kcal" := by
  have h := C9_energy_falsy_fallback "active_energy"
    { period := "2025-10-10", total_value := some 300,
      total_value_converted := some 0, avg_value := some 300,
      min_value := some 300, max_value := some 300, sample_count := 1,
      first_sample := "2025-10-10 08:00:00", last_sample := "2025-10-10 08:00:00",
      metric_unit := "kJ" }
    { metric_type := "active_energy", metric_source := "health_auto_export",
      metric_date := some "2025-10-10 08:00:00", metric_value := some 40,
      metric_unit := "kJ", metric_value_converted := Option.none,
      additional_data := Option.none }
    (Or.inl rfl) (Or.inr rfl) (Or.inl rfl)
  refine ⟨?_, h.2.2.1, h.2.2.2⟩
  rw [h.1]
  show round2 ((some (300:ℚ)).getD 0) = 300
  decide

/-- C8: for step_count queries, at every granularity, the engine
restricts the input set before grouping to the device-filter predicate:
a query over any store equals the same query over the store already
filtered by it; the predicate accepts every row from the real-time
export source and rejects every general-export row without Watch
metadata. -/
theorem C8_step_count_device_filter :
    (∀ (env : QueryEnv) (st : List Row) (days limit : Nat)
        (aggregate startD endD : Option String),
      getAppleHealthMetrics env st "steps" days limit aggregate startD endD
        = getAppleHealthMetrics env (st.filter (deviceFilterPass "step_count"))
            "steps" days limit aggregate startD endD)
    ∧ (∀ r : Row, r.metric_source = "health_auto_export" →
        deviceFilterPass "step_count" r = true)
    ∧ (∀ r : Row, r.metric_source = "health_export_complete" →
        likeWatch r.additional_data = false →
        deviceFilterPass "step_count" r = false) := by
  refine ⟨?_, ?_, ?_⟩
  · intro env st days limit aggregate startD endD
    have hl : lookupMetric "steps" = some "step_count" := rfl
    simp only [getAppleHealthMetrics, hl, filter_matches_device]
  · intro r h
    unfold deviceFilterPass
    rw [if_pos rfl, h]
    simp
  · intro r h1 h2
    unfold deviceFilterPass
    rw [if_pos rfl, h1, h2]
    decide

/-- C8 witness: the predicate on two concrete rows, and the
query-equality at a concrete two-row store. -/
theorem C8_step_count_device_filter_witness :
    deviceFilterPass "step_count" realtimeRow = true
    ∧ deviceFilterPass "step_count" watchlessRow = false
    ∧ getAppleHealthMetrics envFix [realtimeRow, watchlessRow] "steps" 7 100
        (some "daily") (some "2025-10-10") (some "2025-10-11")
      = getAppleHealthMetrics envFix
          ([realtimeRow, watchlessRow].filter (deviceFilterPass "step_count"))
          "steps" 7 100 (some "daily") (some "2025-10-10") (some "2025-10-11") := by
  exact ⟨C8_step_count_device_filter.2.1 realtimeRow rfl,
         C8_step_count_device_filter.2.2 watchlessRow rfl (by decide),
         C8_step_count_device_filter.1 envFix [realtimeRow, watchlessRow] 7 100
           (some "daily") (some "2025-10-10") (some "2025-10-11")⟩

/-- C10: when no explicit start and end dates are supplied, the end
bound is the date-only string for today compared lexicographically, so
a stored row whose timestamp is today followed by any nonempty
time-of-day component fails metric_date less-or-equal end and the query
result, at every aggregation level, is the same as if the row were not
stored. -/
theorem C10_days_only_excludes_today (env : QueryEnv) (st : List Row) (typ : String)
    (days limit : Nat) (aggregate : Option String) (r : Row) (suffix : String)
    (hdate : r.metric_date = some (env.today ++ suffix)) (hs : suffix ≠ "") :
    getAppleHealthMetrics env (st ++ [r]) typ days limit aggregate
        Option.none Option.none
      = getAppleHealthMetrics env st typ days limit aggregate
          Option.none Option.none := by
  unfold getAppleHealthMetrics
  cases hl : lookupMetric typ with
  | none => rfl
  | some internal =>
    have hm : ∀ s0 : String, matchesWhere internal s0 env.today r = false := by
      intro s0
      unfold matchesWhere inRange
      rw [hdate]
      simp [strLeB_append_self_false env.today suffix hs]
    have hfilter : (st ++ [r]).filter (matchesWhere internal (env.cutoff days) env.today)
        = st.filter (matchesWhere internal (env.cutoff days) env.today) := by
      rw [List.filter_append]
      simp [hm]
    simp only [computeRange, hfilter]

/-- C10 witness: with the fixed clock, a store holding one sample for
today 08:14 queried with a days-only range yields the same response as
the empty store. -/
theorem C10_days_only_excludes_today_witness :
    getAppleHealthMetrics envFix ([] ++ [c10Row]) "steps" 7 100 Option.none
        Option.none Option.none
      = getAppleHealthMetrics envFix [] "steps" 7 100 Option.none
          Option.none Option.none := by
  exact C10_days_only_excludes_today envFix [] "steps" 7 100 Option.none c10Row
    " 08:14:00" rfl (by decide)

/-- C6 amended: a data point with a missing timestamp is not rejected:
it is stored with a NULL metric_date and counted in metricsStored like
any other point, the stored row can never match the WHERE clause of any
query, and the batch continues unaffected; under the no-failure oracle
the point loop stores and counts every point. -/
theorem C6_amended_missing_timestamp (name units : String) (dp : DataPoint)
    (dps : List DataPoint) (s : DBState) (n : Nat) (hdp : dp.date = Option.none) :
    (rowOfPoint name units dp).metric_date = Option.none
    ∧ (∀ t a b, matchesWhere t a b (rowOfPoint name units dp) = false)
    ∧ processPoints noFail name units dps s n
        = ({ s with metrics := s.metrics ++ dps.map (rowOfPoint name units),
                    calls := s.calls + dps.length }, n + dps.length, true) := by
  refine ⟨?_, ?_, processPoints_noFail name units dps s n⟩
  · rw [rowOfPoint_date, hdp]
  · intro t a b
    unfold matchesWhere inRange
    rw [rowOfPoint_date, hdp]
    simp

/-- C6 amended witness: the dateless point is stored with NULL date,
fails a concrete WHERE clause, and the loop stores and counts it. -/
theorem C6_amended_missing_timestamp_witness :
    (rowOfPoint "step_count" "count" noDatePoint).metric_date = Option.none
    ∧ matchesWhere "step_count" "2025-01-01" "2025-12-31"
        (rowOfPoint "step_count" "count" noDatePoint) = false
    ∧ processPoints noFail "step_count" "count" [noDatePoint] emptyDB 0
        = ({ emptyDB with metrics := [rowOfPoint "step_count" "count" noDatePoint],
                          calls := 1 }, 1, true) := by
  have h := C6_amended_missing_timestamp "step_count" "count" noDatePoint
    [noDatePoint] emptyDB 0 rfl
  refine ⟨h.1, h.2.1 "step_count" "2025-01-01" "2025-12-31", ?_⟩
  rw [h.2.2]
  rfl

/-- C7 amended: an ingest call appends at most two Import Batch
records: exactly one success-status record when the call returns
counts; when the call fails partway after that record was inserted, a
second error-status record is appended as well; when inserts themselves
fail, fewer records remain. -/
theorem C7_amended_import_records (f : Nat → Bool) (p : Payload) (s : DBState) :
    ((saveAutoExportDataE f p s).2.isSome = true →
      (saveAutoExportDataE f p s).1.imports = s.imports ++ [successRec p])
    ∧ s.imports.length ≤ (saveAutoExportDataE f p s).1.imports.length
    ∧ (saveAutoExportDataE f p s).1.imports.length ≤ s.imports.length + 2 := by
  have hsd : saveAutoExportDataE f p s
      = (let q := tryRun f s (insertImportOp (successRec p))
         if q.2 then
           let pm := processMetrics f (p.metrics.getD []) q.1 0
           if pm.2.2 then
             let pw := processWorkouts f (p.workouts.getD []) pm.1 0
             if pw.2.2 then
               (logSyncE f pw.1, some { metricsStored := pm.2.1, workoutsStored := pw.2.1 })
             else errorPath f pw.1
           else errorPath f pm.1
         else errorPath f q.1) := rfl
  rw [hsd]
  by_cases hf : f s.calls = true
  · simp only [tryRun, hf, if_true]
    have hnone : (errorPath f { s with calls := s.calls + 1 }).2 = Option.none := rfl
    rcases errorPath_imports f { s with calls := s.calls + 1 } with h | h <;>
      simp [h, hnone]
  · simp only [tryRun, hf, if_false, Bool.false_eq_true]
    have hq : (insertImportOp (successRec p) { s with calls := s.calls + 1 }).imports
        = s.imports ++ [successRec p] := rfl
    rcases hpm : processMetrics f (p.metrics.getD [])
        (insertImportOp (successRec p) { s with calls := s.calls + 1 }) 0
      with ⟨s2, n2, ok2⟩
    have h2 : s2.imports = s.imports ++ [successRec p] := by
      have hpres := processMetrics_imports f (p.metrics.getD [])
        (insertImportOp (successRec p) { s with calls := s.calls + 1 }) 0
      rw [hpm] at hpres
      rw [hpres, hq]
    cases ok2 with
    | false =>
      simp only [hpm]
      have hnone : (errorPath f s2).2 = Option.none := rfl
      rcases errorPath_imports f s2 with h | h <;> simp [h, h2, hnone]
    | true =>
      simp only [hpm]
      rcases hpw : processWorkouts f (p.workouts.getD []) s2 0 with ⟨s3, n3, ok3⟩
      have h3 : s3.imports = s.imports ++ [successRec p] := by
        have hpres := processWorkouts_imports f (p.workouts.getD []) s2 0
        rw [hpw] at hpres
        rw [hpres, h2]
      cases ok3 with
      | false =>
        have hnone : (errorPath f s3).2 = Option.none := rfl
        rcases errorPath_imports f s3 with h | h <;> simp [h, h3, hnone]
      | true =>
        simp [logSyncE_imports, h3]

/-- C7 amended witness: the no-failure run of a concrete batch appends
exactly the success record, and the record counts stay within the
bounds. -/
theorem C7_amended_import_records_witness :
    (saveAutoExportData oneStepPayload emptyDB).1.imports
      = [successRec oneStepPayload]
    ∧ emptyDB.imports.length
        ≤ (saveAutoExportData oneStepPayload emptyDB).1.imports.length
    ∧ (saveAutoExportData oneStepPayload emptyDB).1.imports.length
        ≤ emptyDB.imports.length + 2 := by
  have h := C7_amended_import_records noFail oneStepPayload emptyDB
  refine ⟨?_, h.2.1, h.2.2⟩
  have h1 := h.1 (by decide)
  exact h1

/-- C5 amended: for a cumulative kind, over matching rows that share
one unit, whose converted values are positive whenever the kind is an
energy kind, whose per-(day, unit) group sums are exactly representable
at two decimals, and whose day count is within the query limit, the
daily summary total equals the total-granularity single-group value
exactly; without the exact-representability condition the per-day
rounding drifts beyond the 2-decimal precision (see the
counterexample). -/
theorem C5_amended_daily_total_exact (env : QueryEnv) (st : List Row)
    (typ internal u : String) (days limit : Nat) (s e : String)
    (hmap : lookupMetric typ = some internal)
    (hcum : cumulativeMetrics.contains internal = true)
    (hne : matchingOf st internal s e ≠ [])
    (hu : ∀ r ∈ matchingOf st internal s e, r.metric_unit = u)
    (hconv : isEnergyKind internal = true →
      ∀ r ∈ matchingOf st internal s e,
        ∃ c, r.metric_value_converted = some c ∧ 0 < c)
    (hcent : ∀ k ∈ dailyKeysOf st internal s e,
      Cent (chosenSum internal (fiberOf st internal s e k)))
    (hlim : (dailyKeysOf st internal s e).length ≤ limit) :
    ∃ t : ℚ,
      summaryTotalE (getAppleHealthMetrics env st typ days limit
          (some "daily") (some s) (some e)) = some t
      ∧ groupValuesE (getAppleHealthMetrics env st typ days limit
          (some "total") (some s) (some e)) = some [t] := by
  refine ⟨((matchingOf st internal s e).map
    (fun r => (chosenField internal r).getD 0)).sum, ?_, ?_⟩
  · have hq1 : getAppleHealthMetrics env st typ days limit
        (some "daily") (some s) (some e)
        = Except.ok (pipelineCore (matchingOf st internal s e)
            internal typ limit Agg.daily s e) := by
      unfold getAppleHealthMetrics
      rw [hmap]
      rfl
    rw [hq1]
    exact daily_summary_total internal typ limit s e (matchingOf st internal s e)
      hcum hne hconv hcent hlim
  · have hq2 : getAppleHealthMetrics env st typ days limit
        (some "total") (some s) (some e)
        = Except.ok (pipelineCore (matchingOf st internal s e)
            internal typ limit Agg.total s e) := by
      unfold getAppleHealthMetrics
      rw [hmap]
      rfl
    rw [hq2]
    have hval := total_single_value internal (matchingOf st internal s e) u
      hcum hne hu hconv
    have hS : chosenSum internal (matchingOf st internal s e)
        = ((matchingOf st internal s e).map
            (fun r => (chosenField internal r).getD 0)).sum := by
      unfold chosenSum
      exact filterMap_sum_getD _ _
    have hcent2 := chosen_total_cent internal (matchingOf st internal s e) hcent
    have hgv : groupValuesE (Except.ok (pipelineCore (matchingOf st internal s e)
        internal typ limit Agg.total s e))
        = some ((totalResults (matchingOf st internal s e) internal).map
            AggOut.value) := rfl
    rw [hgv, hval, hS]
    rw [round2_cent _ hcent2]

/-- C5 amended witness: two step_count rows on two days with cent
values 0.25 and 0.5, where the daily summary total and the total
granularity value agree. -/
theorem C5_amended_daily_total_exact_witness :
    ∃ t : ℚ,
      summaryTotalE (getAppleHealthMetrics envFix centStore "steps" 30 100
          (some "daily") (some "2025-01-01") (some "2025-01-31")) = some t
      ∧ groupValuesE (getAppleHealthMetrics envFix centStore "steps" 30 100
          (some "total") (some "2025-01-01") (some "2025-01-31")) = some [t] := by
  refine C5_amended_daily_total_exact envFix centStore "steps" "step_count" "count"
    30 100 "2025-01-01" "2025-01-31" rfl (by decide) (by decide) (by decide)
    (fun h => absurd h (by decide)) ?_ (by decide)
  intro k hk
  have hkeys : dailyKeysOf centStore "step_count" "2025-01-01" "2025-01-31"
      = [("2025-01-01", "count"), ("2025-01-02", "count")] := by decide
  rw [hkeys] at hk
  simp only [List.mem_cons, List.not_mem_nil, or_false] at hk
  rcases hk with hk | hk <;> subst hk
  · have h1 : chosenSum "step_count"
        (fiberOf centStore "step_count" "2025-01-01" "2025-01-31"
          ("2025-01-01", "count")) = 1/4 := by decide
    rw [h1]
    exact ⟨25, by norm_num⟩
  · have h2 : chosenSum "step_count"
        (fiberOf centStore "step_count" "2025-01-01" "2025-01-31"
          ("2025-01-02", "count")) = 1/2 := by decide
    rw [h2]
    exact ⟨50, by norm_num⟩

end Health
